import Mathlib

/-!
Verification of the event-filter engine (`src/filter.rs`) of the
aerostream repository: subscription sets, keyword sets, filter rules and
the filter registry, together with their matching and mutation semantics.
-/

namespace Aerostream

/-- Modelled from the spec: the external directory client's handle
resolution (`Client::get_handle`), a fallible handle-to-identifier
lookup used only during `init`; `none` represents a resolution
failure. -/
def Client : Type := String → Option String

/-- Modelled from the spec: a Commit event carries a RepositoryId
(`repo`) and zero or more extractable text fragments (returned by
`get_post_text`). -/
structure Commit where
  repo : String
  post_texts : List String
deriving DecidableEq, Repr

/-- Modelled from the spec: `Commit::get_post_text` returns the commit's
extractable text fragments (post bodies). -/
def Commit.get_post_text (c : Commit) : List String := c.post_texts

/-- Modelled from the spec: a HandleUpdate event carries the repository
id (`did`) whose handle changed. -/
structure Handle where
  did : String
deriving DecidableEq, Repr

/-- Modelled from the spec: the event payload is a tagged union of a
Commit, a HandleUpdate (`handle`), or anything else (`other`:
lifecycle/control events). -/
inductive Payload where
  | commit (c : Commit)
  | handle (h : Handle)
  | other
deriving DecidableEq, Repr

/-- Modelled from the spec: an incoming event; only its payload is
consulted by the filter. -/
structure Event where
  payload : Payload
deriving DecidableEq, Repr

/-- Subscription set (`Subscribes` in `src/filter.rs`): optional list of
repository identifiers (dids) and optional list of handles. -/
structure Subscribes where
  dids : Option (List String)
  handles : Option (List String)
deriving DecidableEq, Repr

/-- `Subscribes::is_match`: true iff some configured did equals `repo`;
false when the did list is absent. -/
def Subscribes.is_match (s : Subscribes) (repo : String) : Bool :=
  match s.dids with
  | some dids => dids.any (fun d => repo == d)
  | none => false

/-- `Subscribes::subscribe_repo`: appends the did, creating a singleton
list when the did list was absent. -/
def Subscribes.subscribe_repo (s : Subscribes) (did : String) : Except String Subscribes :=
  match s.dids with
  | some dids => .ok { s with dids := some (dids ++ [did]) }
  | none => .ok { s with dids := some [did] }

/-- `Subscribes::unsubscribe_repo`: removes every occurrence of the did;
fails when the did list was never set. -/
def Subscribes.unsubscribe_repo (s : Subscribes) (did : String) : Except String Subscribes :=
  match s.dids with
  | some dids => .ok { s with dids := some (dids.filter (fun d => d != did)) }
  | none => .error "no such did"

/-- `Subscribes::subscribe_handle`: appends the handle, creating a
singleton list when the handle list was absent. -/
def Subscribes.subscribe_handle (s : Subscribes) (handle : String) : Except String Subscribes :=
  match s.handles with
  | some handles => .ok { s with handles := some (handles ++ [handle]) }
  | none => .ok { s with handles := some [handle] }

/-- `Subscribes::unsubscribe_handle`: removes every occurrence of the
handle; fails when the handle list was never set. -/
def Subscribes.unsubscribe_handle (s : Subscribes) (handle : String) : Except String Subscribes :=
  match s.handles with
  | some handles => .ok { s with handles := some (handles.filter (fun h => h != handle)) }
  | none => .error "no such handle"

/-- Keyword set (`Keywords` in `src/filter.rs`). -/
structure Keywords where
  includes : Option (List String)
  excludes : Option (List String)
deriving DecidableEq, Repr

/-- Embedding of Rust `str::contains`: `pat` occurs in `s` as a
contiguous substring (case-sensitive, raw containment). -/
def strContains (s pat : String) : Bool := decide (pat.data <:+: s.data)

/-- `Keywords::includes` (the method): some post text of the commit
contains some include term; false when the include list is absent. -/
def Keywords.matches_includes (k : Keywords) (commit : Commit) : Bool :=
  match k.includes with
  | none => false
  | some includes =>
    commit.get_post_text.any (fun p => includes.any (fun i => strContains p i))

/-- `Keywords::excludes` (the method): some post text of the commit
contains some exclude term; false when the exclude list is absent. -/
def Keywords.matches_excludes (k : Keywords) (commit : Commit) : Bool :=
  match k.excludes with
  | none => false
  | some excludes =>
    commit.get_post_text.any (fun p => excludes.any (fun i => strContains p i))

/-- Filter rule (`Filter` in `src/filter.rs`). -/
structure Filter where
  name : String
  subscribes : Option Subscribes
  keywords : Option Keywords
deriving DecidableEq, Repr

/-- `Filter::init`: resolves each handle via the client (failures
skipped), collects the results and the pre-existing dids into hash
sets, takes their union, and stores it back as the did list, or `none`
when the union is empty. The handle list itself is not modified. The
Rust code builds two `HashSet`s and unions them; since a `HashSet`'s
iteration order is unspecified, the union is embedded as the
duplicate-free list `(pre ++ resolved).dedup`, which has exactly the
union's membership and no duplicates. -/
def Filter.init (client : Client) (f : Filter) : Filter :=
  match f.subscribes with
  | none => f
  | some follows =>
    match follows.handles with
    | none => f
    | some handles =>
      let converted : List String := handles.filterMap client
      let didsList : List String := ((follows.dids.getD []) ++ converted).dedup
      let follows2 :=
        if didsList.isEmpty
        then { follows with dids := none }
        else { follows with dids := some didsList }
      { f with subscribes := some follows2 }

/-- `Filter::is_follows_match`: delegates to the subscription set; false
when no subscription is configured. -/
def Filter.is_follows_match (f : Filter) (commit : Commit) : Bool :=
  match f.subscribes with
  | some s => s.is_match commit.repo
  | none => false

/-- `Filter::is_handle_match`: delegates to the subscription set on the
event's did; false when no subscription is configured. -/
def Filter.is_handle_match (f : Filter) (handle : Handle) : Bool :=
  match f.subscribes with
  | some s => s.is_match handle.did
  | none => false

/-- `Filter::is_keywords_includes`: delegates to the keyword set; false
when no keyword set is configured. -/
def Filter.is_keywords_includes (f : Filter) (commit : Commit) : Bool :=
  match f.keywords with
  | some k => k.matches_includes commit
  | none => false

/-- `Filter::is_keywords_excludes`: delegates to the keyword set; false
when no keyword set is configured. -/
def Filter.is_keywords_excludes (f : Filter) (commit : Commit) : Bool :=
  match f.keywords with
  | some k => k.matches_excludes commit
  | none => false

/-- `Filter::is_match`: the match predicate over an incoming event. -/
def Filter.is_match (f : Filter) (event : Event) : Bool :=
  match event.payload with
  | Payload.commit c =>
    match f.is_follows_match c with
    | true => !(f.is_keywords_excludes c)
    | false => f.is_keywords_includes c
  | Payload.handle h => f.is_handle_match h
  | Payload.other => true

/-- `Filter::subscribe_repo`: lazily creates the subscription set, then
delegates. -/
def Filter.subscribe_repo (f : Filter) (did : String) : Except String Filter :=
  let f2 := match f.subscribes with
    | none => { f with subscribes := some ⟨none, none⟩ }
    | some _ => f
  match f2.subscribes with
  | some s => (s.subscribe_repo did).map (fun s2 => { f2 with subscribes := some s2 })
  | none => .error "cannot modify filter"

/-- `Filter::unsubscribe_repo`: fails when no subscription exists,
otherwise delegates. -/
def Filter.unsubscribe_repo (f : Filter) (did : String) : Except String Filter :=
  match f.subscribes with
  | none => .error "no such did"
  | some s => (s.unsubscribe_repo did).map (fun s2 => { f with subscribes := some s2 })

/-- `Filter::subscribe_handle`: lazily creates the subscription set,
then delegates. -/
def Filter.subscribe_handle (f : Filter) (handle : String) : Except String Filter :=
  let f2 := match f.subscribes with
    | none => { f with subscribes := some ⟨none, none⟩ }
    | some _ => f
  match f2.subscribes with
  | some s => (s.subscribe_handle handle).map (fun s2 => { f2 with subscribes := some s2 })
  | none => .error "cannot modify filter"

/-- `Filter::unsubscribe_handle`: fails when no subscription exists,
otherwise delegates. -/
def Filter.unsubscribe_handle (f : Filter) (handle : String) : Except String Filter :=
  match f.subscribes with
  | none => .error "no such handle"
  | some s => (s.unsubscribe_handle handle).map (fun s2 => { f with subscribes := some s2 })

/-- Filter registry (`Filters` in `src/filter.rs`): ordered sequence of
filter rules. -/
structure Filters where
  filters : List Filter
deriving DecidableEq, Repr

/-- Embedding of `iter_mut().find(p)` followed by a fallible in-place
mutation `g` of the found element: applies `g` to the first element
satisfying `p`, leaving all others unchanged; fails with
"no such named filter" when no element satisfies `p`. -/
def updateFirst (p : Filter → Bool) (g : Filter → Except String Filter) :
    List Filter → Except String (List Filter)
  | [] => .error "no such named filter"
  | f :: rest =>
    if p f then (g f).map (fun f2 => f2 :: rest)
    else (updateFirst p g rest).map (fun rest2 => f :: rest2)

/-- `Filters::init`: initializes every rule in sequence order. -/
def Filters.init (client : Client) (fs : Filters) : Filters :=
  ⟨fs.filters.map (Filter.init client)⟩

/-- `Filters::get_filters`: snapshot of all rules. -/
def Filters.get_filters (fs : Filters) : List Filter := fs.filters

/-- `Filters::subscribe_repo`: delegates to the first rule with the
given name; fails when none exists. -/
def Filters.subscribe_repo (fs : Filters) (name did : String) : Except String Filters :=
  (updateFirst (fun f => f.name == name) (fun f => f.subscribe_repo did) fs.filters).map Filters.mk

/-- `Filters::unsubscribe_repo`: delegates to the first rule with the
given name; fails when none exists. -/
def Filters.unsubscribe_repo (fs : Filters) (name did : String) : Except String Filters :=
  (updateFirst (fun f => f.name == name) (fun f => f.unsubscribe_repo did) fs.filters).map Filters.mk

/-- `Filters::subscribe_handle`: delegates to the first rule with the
given name; fails when none exists. -/
def Filters.subscribe_handle (fs : Filters) (name handle : String) : Except String Filters :=
  (updateFirst (fun f => f.name == name) (fun f => f.subscribe_handle handle) fs.filters).map Filters.mk

/-- `Filters::unsubscribe_handle`: delegates to the first rule with the
given name; fails when none exists. -/
def Filters.unsubscribe_handle (fs : Filters) (name handle : String) : Except String Filters :=
  (updateFirst (fun f => f.name == name) (fun f => f.unsubscribe_handle handle) fs.filters).map Filters.mk

/-- The identifier set a filter's subscription effectively matches
against: the did list when present, the empty list when the
subscription or its did list is absent. -/
def subIdentifiers (f : Filter) : List String :=
  (f.subscribes.bind Subscribes.dids).getD []

/-- Helper: `List.any` of equality tests is membership. -/
theorem list_any_beq_eq_mem (repo : String) (dids : List String) :
    (dids.any fun d => repo == d) = decide (repo ∈ dids) := by
  rw [Bool.eq_iff_iff]
  simp [List.any_eq_true]

/-- Bridging lemma: `Subscribes.is_match` is membership in the did list
(empty when absent). -/
theorem Subscribes.is_match_eq_mem (s : Subscribes) (repo : String) :
    s.is_match repo = decide (repo ∈ s.dids.getD []) := by
  unfold Subscribes.is_match
  cases s.dids with
  | none => simp
  | some dids => simp [list_any_beq_eq_mem]

/-- Bridging lemma: follows-match is membership in `subIdentifiers`. -/
theorem Filter.is_follows_match_eq_mem (f : Filter) (c : Commit) :
    f.is_follows_match c = decide (c.repo ∈ subIdentifiers f) := by
  unfold Filter.is_follows_match subIdentifiers
  cases f.subscribes with
  | none => simp
  | some s => simp [Subscribes.is_match_eq_mem]

/-- Bridging lemma: handle-match is membership in `subIdentifiers`. -/
theorem Filter.is_handle_match_eq_mem (f : Filter) (h : Handle) :
    f.is_handle_match h = decide (h.did ∈ subIdentifiers f) := by
  unfold Filter.is_handle_match subIdentifiers
  cases f.subscribes with
  | none => simp
  | some s => simp [Subscribes.is_match_eq_mem]

/-- C10: an event whose payload is neither a Commit nor a HandleUpdate
always matches, whatever the subscription and keyword configuration. -/
theorem other_event_always_matches (f : Filter) :
    f.is_match ⟨Payload.other⟩ = true := rfl

/-- C5: a HandleUpdate event matches iff the subscription's identifier
set contains the event's repository id; keyword configuration is never
consulted for this event type. -/
theorem handle_event_matches_iff_subscribed (f : Filter) (h : Handle) :
    f.is_match ⟨Payload.handle h⟩ = decide (h.did ∈ subIdentifiers f)
    ∧ ∀ k : Option Keywords,
      Filter.is_match { f with keywords := k } ⟨Payload.handle h⟩
        = f.is_match ⟨Payload.handle h⟩ := by
  constructor
  · show f.is_handle_match h = _
    exact Filter.is_handle_match_eq_mem f h
  · intro k
    rfl

/-- C2: a Commit event matches as follows: when the subscription's
identifier set contains the event's repository id, it matches unless
the exclude-keyword predicate fires; otherwise it matches iff the
include-keyword predicate fires. -/
theorem commit_event_match_rule (f : Filter) (c : Commit) :
    f.is_match ⟨Payload.commit c⟩ =
      if c.repo ∈ subIdentifiers f
      then !(f.is_keywords_excludes c)
      else f.is_keywords_includes c := by
  show (match f.is_follows_match c with
        | true => !(f.is_keywords_excludes c)
        | false => f.is_keywords_includes c) = _
  rw [Filter.is_follows_match_eq_mem]
  by_cases hm : c.repo ∈ subIdentifiers f <;> simp [hm]

/-- C6: the include predicate fires iff an include list is present and
some text fragment contains some include term as a contiguous
(case-sensitive, raw) substring; the exclude predicate has the same
semantics over the exclude list; an absent list makes the predicate
false on every input. -/
theorem keyword_predicates_substring (k : Keywords) (c : Commit) :
    (k.matches_includes c = true ↔
      ∃ l, k.includes = some l ∧ ∃ p ∈ c.get_post_text, ∃ i ∈ l, i.data <:+: p.data)
    ∧ (k.matches_excludes c = true ↔
      ∃ l, k.excludes = some l ∧ ∃ p ∈ c.get_post_text, ∃ i ∈ l, i.data <:+: p.data) := by
  constructor
  · unfold Keywords.matches_includes
    cases k.includes with
    | none => simp
    | some l => simp [List.any_eq_true, strContains]
  · unfold Keywords.matches_excludes
    cases k.excludes with
    | none => simp
    | some l => simp [List.any_eq_true, strContains]

/-- C4: `Filter::unsubscribe_repo` fails with "no such did" when there
is no subscription or the did list was never set; when a did list
exists it succeeds, removing exactly the occurrences of the given id;
when the id is absent it succeeds and leaves the filter unchanged. -/
theorem unsubscribe_repo_spec (f : Filter) (id : String) :
    ((f.subscribes = none ∨ ∃ s, f.subscribes = some s ∧ s.dids = none) →
      f.unsubscribe_repo id = .error "no such did")
    ∧ (∀ s dids, f.subscribes = some s → s.dids = some dids →
      ∃ l, f.unsubscribe_repo id
          = .ok { f with subscribes := some { s with dids := some l } }
        ∧ ∀ x, x ∈ l ↔ x ∈ dids ∧ x ≠ id)
    ∧ (∀ s dids, f.subscribes = some s → s.dids = some dids → id ∉ dids →
      f.unsubscribe_repo id = .ok f) := by
  refine ⟨?_, ?_, ?_⟩
  · rintro (h | ⟨s, hs, hd⟩)
    · simp [Filter.unsubscribe_repo, h]
    · simp [Filter.unsubscribe_repo, hs, Subscribes.unsubscribe_repo, hd, Except.map]
  · intro s dids hs hd
    refine ⟨dids.filter (fun d => d != id), ?_, ?_⟩
    · simp [Filter.unsubscribe_repo, hs, Subscribes.unsubscribe_repo, hd, Except.map]
    · intro x
      simp [List.mem_filter]
  · intro s dids hs hd hnot
    have hfilter : dids.filter (fun d => d != id) = dids := by
      apply List.filter_eq_self.mpr
      intro x hx
      exact bne_iff_ne.mpr (fun hxe => hnot (hxe ▸ hx))
    have hsub : { s with dids := some dids } = s := by
      cases s
      simp at hd
      simp [hd]
    simp [Filter.unsubscribe_repo, hs, Subscribes.unsubscribe_repo, hd, hfilter, hsub]
    cases f
    simp at hs
    simp only [hs]
    rfl

/-- Witness for C4 at concrete inputs: a filter with no subscription
fails, and a filter with dids `["d1", "d2", "d1"]` has both occurrences
of `"d1"` removed. -/
theorem unsubscribe_repo_spec_witness :
    Filter.unsubscribe_repo ⟨"r", none, none⟩ "d1" = .error "no such did"
    ∧ ∃ l,
      Filter.unsubscribe_repo ⟨"r", some ⟨some ["d1", "d2", "d1"], none⟩, none⟩ "d1"
        = .ok { name := "r"
                subscribes := some { dids := some l, handles := none }
                keywords := none }
      ∧ ∀ x, x ∈ l ↔ x ∈ ["d1", "d2", "d1"] ∧ x ≠ "d1" :=
  ⟨(unsubscribe_repo_spec ⟨"r", none, none⟩ "d1").1 (Or.inl rfl),
   (unsubscribe_repo_spec ⟨"r", some ⟨some ["d1", "d2", "d1"], none⟩, none⟩ "d1").2.1
     ⟨some ["d1", "d2", "d1"], none⟩ ["d1", "d2", "d1"] rfl rfl⟩

/-- Helper: `updateFirst` fails when no element satisfies the
predicate. -/
theorem updateFirst_error_of_none (p : Filter → Bool) (g : Filter → Except String Filter)
    (l : List Filter) (h : ∀ f ∈ l, p f = false) :
    updateFirst p g l = .error "no such named filter" := by
  induction l with
  | nil => rfl
  | cons f rest ih =>
    have hf := h f (List.mem_cons_self f rest)
    have hrest := ih (fun x hx => h x (List.mem_cons_of_mem f hx))
    simp [updateFirst, hf, hrest, Except.map]

/-- C8: every name-addressed mutation with a name no rule bears fails
with the no-such-filter error (and, the operations being pure
functions, returns no modified registry and cannot panic). -/
theorem nonexistent_name_fails (fs : Filters) (name v : String)
    (h : ∀ f ∈ fs.filters, f.name ≠ name) :
    fs.subscribe_repo name v = .error "no such named filter"
    ∧ fs.unsubscribe_repo name v = .error "no such named filter"
    ∧ fs.subscribe_handle name v = .error "no such named filter"
    ∧ fs.unsubscribe_handle name v = .error "no such named filter" := by
  have hp : ∀ f ∈ fs.filters, (f.name == name) = false :=
    fun f hf => beq_eq_false_iff_ne.mpr (h f hf)
  refine ⟨?_, ?_, ?_, ?_⟩
  · unfold Filters.subscribe_repo
    rw [updateFirst_error_of_none _ _ _ hp]
    rfl
  · unfold Filters.unsubscribe_repo
    rw [updateFirst_error_of_none _ _ _ hp]
    rfl
  · unfold Filters.subscribe_handle
    rw [updateFirst_error_of_none _ _ _ hp]
    rfl
  · unfold Filters.unsubscribe_handle
    rw [updateFirst_error_of_none _ _ _ hp]
    rfl

/-- Witness for C8: a registry with one rule named "a" rejects all four
mutations addressed to the name "b". -/
theorem nonexistent_name_fails_witness :
    Filters.subscribe_repo ⟨[⟨"a", none, none⟩]⟩ "b" "d" = .error "no such named filter"
    ∧ Filters.unsubscribe_repo ⟨[⟨"a", none, none⟩]⟩ "b" "d" = .error "no such named filter"
    ∧ Filters.subscribe_handle ⟨[⟨"a", none, none⟩]⟩ "b" "d" = .error "no such named filter"
    ∧ Filters.unsubscribe_handle ⟨[⟨"a", none, none⟩]⟩ "b" "d" = .error "no such named filter" :=
  nonexistent_name_fails ⟨[⟨"a", none, none⟩]⟩ "b" "d" (by decide)

/-- Helper: a successful `updateFirst` found a first element satisfying
the predicate, rewrote exactly that element through `g`, and left the
rest in place. -/
theorem updateFirst_ok_spec (p : Filter → Bool) (g : Filter → Except String Filter)
    (l l2 : List Filter) (h : updateFirst p g l = .ok l2) :
    ∃ i, ∃ hi : i < l.length, p (l.get ⟨i, hi⟩) = true
      ∧ (∀ j (hj : j < l.length), j < i → p (l.get ⟨j, hj⟩) = false)
      ∧ ∃ x2, g (l.get ⟨i, hi⟩) = .ok x2 ∧ l2 = l.set i x2 := by
  induction l generalizing l2 with
  | nil => simp [updateFirst] at h
  | cons f rest ih =>
    by_cases hp : p f
    · rw [updateFirst, if_pos hp] at h
      cases hgf : g f with
      | error e => rw [hgf] at h; simp [Except.map] at h
      | ok x2 =>
        rw [hgf] at h
        simp only [Except.map] at h
        cases h
        refine ⟨0, by simp, by simpa using hp, ?_, x2, hgf, rfl⟩
        intro j hj hlt
        omega
    · rw [updateFirst, if_neg hp] at h
      cases hrest : updateFirst p g rest with
      | error e => rw [hrest] at h; simp [Except.map] at h
      | ok rest2 =>
        rw [hrest] at h
        simp only [Except.map] at h
        cases h
        obtain ⟨i, hi, hpi, hbefore, x2, hg, hset⟩ := ih rest2 hrest
        refine ⟨i + 1, by simpa using Nat.succ_lt_succ hi, by simpa using hpi, ?_, x2, ?_, ?_⟩
        · intro j hj hlt
          cases j with
          | zero => simpa using Bool.eq_false_iff.mpr hp
          | succ j2 =>
            have hj2 : j2 < rest.length := by simpa using Nat.lt_of_succ_lt_succ hj
            have := hbefore j2 hj2 (Nat.lt_of_succ_lt_succ hlt)
            simpa using this
        · simpa using hg
        · simp [hset]

/-- Only the first rule whose name equals `name` differs between the
two rule sequences: lengths agree, the changed position bears `name`,
every earlier position does not, and every other position is
unchanged. -/
def OnlyFirstNamedChanged (name : String) (l l2 : List Filter) : Prop :=
  l2.length = l.length ∧
  ∃ i, ∃ hi : i < l.length,
    (l.get ⟨i, hi⟩).name = name
    ∧ (∀ j (hj : j < l.length), j < i → (l.get ⟨j, hj⟩).name ≠ name)
    ∧ ∀ j (hj : j < l.length) (hj2 : j < l2.length), j ≠ i → l2.get ⟨j, hj2⟩ = l.get ⟨j, hj⟩

/-- Helper: a successful name-addressed `updateFirst` changes only the
first rule with that name. -/
theorem updateFirst_only_first_changed (name : String) (g : Filter → Except String Filter)
    (l l2 : List Filter) (h : updateFirst (fun f => f.name == name) g l = .ok l2) :
    OnlyFirstNamedChanged name l l2 := by
  obtain ⟨i, hi, hpi, hbefore, x2, hg, hset⟩ := updateFirst_ok_spec _ g l l2 h
  subst hset
  refine ⟨by simp, i, hi, by simpa using hpi, ?_, ?_⟩
  · intro j hj hlt
    have := hbefore j hj hlt
    simpa using this
  · intro j hj hj2 hne
    simp only [List.get_eq_getElem]
    exact List.getElem_set_ne (fun hE => hne hE.symm) _

/-- Helper: unwrapping the `Filters.mk` layer of a successful registry
mutation. -/
theorem map_mk_ok (r : Except String (List Filter)) (fs2 : Filters)
    (h : r.map Filters.mk = .ok fs2) : r = .ok fs2.filters := by
  cases r with
  | error e => simp [Except.map] at h
  | ok l =>
    simp only [Except.map] at h
    cases h
    rfl

/-- C9: with duplicate names permitted, each successful name-addressed
mutation modifies only the first rule in sequence order whose name
equals the given name; every other rule is unchanged. -/
theorem named_mutations_modify_first_only (fs : Filters) (name v : String) :
    (∀ fs2, fs.subscribe_repo name v = .ok fs2 →
      OnlyFirstNamedChanged name fs.filters fs2.filters)
    ∧ (∀ fs2, fs.unsubscribe_repo name v = .ok fs2 →
      OnlyFirstNamedChanged name fs.filters fs2.filters)
    ∧ (∀ fs2, fs.subscribe_handle name v = .ok fs2 →
      OnlyFirstNamedChanged name fs.filters fs2.filters)
    ∧ (∀ fs2, fs.unsubscribe_handle name v = .ok fs2 →
      OnlyFirstNamedChanged name fs.filters fs2.filters) := by
  refine ⟨?_, ?_, ?_, ?_⟩
  · intro fs2 h
    exact updateFirst_only_first_changed name _ _ _ (map_mk_ok _ _ h)
  · intro fs2 h
    exact updateFirst_only_first_changed name _ _ _ (map_mk_ok _ _ h)
  · intro fs2 h
    exact updateFirst_only_first_changed name _ _ _ (map_mk_ok _ _ h)
  · intro fs2 h
    exact updateFirst_only_first_changed name _ _ _ (map_mk_ok _ _ h)

/-- Witness for C9: in a registry with two rules both named "a", adding
a did through the name "a" changes only the first rule. -/
theorem named_mutations_modify_first_only_witness :
    OnlyFirstNamedChanged "a"
      [⟨"a", none, none⟩, ⟨"a", some ⟨some ["x"], none⟩, none⟩]
      [⟨"a", some ⟨some ["d"], none⟩, none⟩, ⟨"a", some ⟨some ["x"], none⟩, none⟩] :=
  (named_mutations_modify_first_only
      ⟨[⟨"a", none, none⟩, ⟨"a", some ⟨some ["x"], none⟩, none⟩]⟩ "a" "d").1
    ⟨[⟨"a", some ⟨some ["d"], none⟩, none⟩, ⟨"a", some ⟨some ["x"], none⟩, none⟩]⟩
    (by rfl)

/-- Helper: `Filter::subscribe_repo` always succeeds and yields a
subscription whose did list is set, preserving name and keywords. -/
theorem Filter.subscribe_repo_ok (f : Filter) (id : String) :
    ∃ d1 h1, f.subscribe_repo id = .ok ⟨f.name, some ⟨some d1, h1⟩, f.keywords⟩ := by
  cases f with
  | mk nm sub kw =>
    cases sub with
    | none => exact ⟨[id], none, rfl⟩
    | some s =>
      cases s with
      | mk d hnd =>
        cases d with
        | none => exact ⟨[id], hnd, rfl⟩
        | some dids => exact ⟨dids ++ [id], hnd, rfl⟩

/-- Helper: `Filter::unsubscribe_repo` on a filter with a set did list
filters that list in place. -/
theorem Filter.unsubscribe_repo_ok_of_dids (nm : String) (d : List String)
    (hnd : Option (List String)) (kw : Option Keywords) (id : String) :
    Filter.unsubscribe_repo ⟨nm, some ⟨some d, hnd⟩, kw⟩ id
      = .ok ⟨nm, some ⟨some (d.filter (fun x => x != id)), hnd⟩, kw⟩ := rfl

/-- Helper: subscribe-then-unsubscribe round trip at the rule-list
level: both operations succeed and the first rule bearing the name ends
with the id absent from its identifiers. -/
theorem round_trip_list (l : List Filter) (name id : String)
    (h : ∃ f ∈ l, f.name = name) :
    ∃ l1 l2 f2,
      updateFirst (fun f => f.name == name) (fun f => f.subscribe_repo id) l = .ok l1
      ∧ updateFirst (fun f => f.name == name) (fun f => f.unsubscribe_repo id) l1 = .ok l2
      ∧ l2.find? (fun f => f.name == name) = some f2
      ∧ id ∉ subIdentifiers f2 := by
  induction l with
  | nil => simp at h
  | cons f rest ih =>
    by_cases hp : f.name = name
    · have hpb : (f.name == name) = true := beq_iff_eq.mpr hp
      obtain ⟨d1, h1, hsub⟩ := Filter.subscribe_repo_ok f id
      refine ⟨⟨f.name, some ⟨some d1, h1⟩, f.keywords⟩ :: rest,
        ⟨f.name, some ⟨some (d1.filter (fun x => x != id)), h1⟩, f.keywords⟩ :: rest,
        ⟨f.name, some ⟨some (d1.filter (fun x => x != id)), h1⟩, f.keywords⟩, ?_, ?_, ?_, ?_⟩
      · simp [updateFirst, hpb, hsub, Except.map]
      · simp [updateFirst, hpb, Filter.unsubscribe_repo_ok_of_dids, Except.map]
      · exact List.find?_cons_of_pos _ (by simpa using hpb)
      · simp [subIdentifiers, List.mem_filter]
    · have hpb : (f.name == name) = false := beq_eq_false_iff_ne.mpr hp
      have h2 : ∃ x ∈ rest, x.name = name := by
        rcases h with ⟨x, hx, hn⟩
        rcases List.mem_cons.mp hx with hx | hx
        · exact absurd (hx ▸ hn) hp
        · exact ⟨x, hx, hn⟩
      obtain ⟨l1, l2, f2, hs, hu, hf, hm⟩ := ih h2
      refine ⟨f :: l1, f :: l2, f2, ?_, ?_, ?_, hm⟩
      · simp [updateFirst, hpb, hs, Except.map]
      · simp [updateFirst, hpb, hu, Except.map]
      · rw [List.find?_cons_of_neg _ (by simpa using hpb)]
        exact hf

/-- C7: in a registry containing a rule with the given name,
`subscribe_repo(name, id)` followed by `unsubscribe_repo(name, id)`
succeeds and leaves the addressed rule (the first with that name) with
id absent from its subscription identifiers, however many times id was
present before. -/
theorem subscribe_then_unsubscribe_round_trip (fs : Filters) (name id : String)
    (h : ∃ f ∈ fs.filters, f.name = name) :
    ∃ fs1 fs2 f2,
      fs.subscribe_repo name id = .ok fs1
      ∧ fs1.unsubscribe_repo name id = .ok fs2
      ∧ fs2.filters.find? (fun f => f.name == name) = some f2
      ∧ id ∉ subIdentifiers f2 := by
  obtain ⟨l1, l2, f2, hs, hu, hf, hm⟩ := round_trip_list fs.filters name id h
  refine ⟨⟨l1⟩, ⟨l2⟩, f2, ?_, ?_, hf, hm⟩
  · simp [Filters.subscribe_repo, hs, Except.map]
  · simp [Filters.unsubscribe_repo, hu, Except.map]

/-- Witness for C7: a registry whose rule "a" holds id "d" twice; after
the round trip the membership of "d" is false. -/
theorem subscribe_then_unsubscribe_round_trip_witness :
    ∃ fs1 fs2 f2,
      Filters.subscribe_repo ⟨[⟨"a", some ⟨some ["d", "z", "d"], none⟩, none⟩]⟩ "a" "d" = .ok fs1
      ∧ fs1.unsubscribe_repo "a" "d" = .ok fs2
      ∧ fs2.filters.find? (fun f => f.name == "a") = some f2
      ∧ "d" ∉ subIdentifiers f2 :=
  subscribe_then_unsubscribe_round_trip
    ⟨[⟨"a", some ⟨some ["d", "z", "d"], none⟩, none⟩]⟩ "a" "d" (by decide)

/-- Helper: membership in the deduplicated union list built by
`Filter.init`. -/
theorem mem_init_union (client : Client) (d : Option (List String))
    (hs : List String) (x : String) :
    x ∈ ((d.getD []) ++ hs.filterMap client).dedup ↔
      (∃ d0, d = some d0 ∧ x ∈ d0) ∨ ∃ hh ∈ hs, client hh = some x := by
  rw [List.mem_dedup, List.mem_append, List.mem_filterMap]
  cases d with
  | none => simp
  | some d0 => simp

/-- C3: for a filter whose subscription has a handle list, `init`
replaces the did list by the union of the pre-existing dids and the
successfully resolved handles (failures silently skipped, duplicates
collapsed), leaves the handle list as it was, and stores `none` rather
than an empty list when the union is empty. -/
theorem init_union_spec (client : Client) (f : Filter) (s : Subscribes) (hs : List String)
    (h1 : f.subscribes = some s) (h2 : s.handles = some hs) :
    ∃ s2, (f.init client).subscribes = some s2
      ∧ s2.handles = s.handles
      ∧ (∀ x, x ∈ s2.dids.getD [] ↔
          (∃ d0, s.dids = some d0 ∧ x ∈ d0) ∨ ∃ hh ∈ hs, client hh = some x)
      ∧ (s2.dids = none ↔
          ∀ x, ¬((∃ d0, s.dids = some d0 ∧ x ∈ d0) ∨ ∃ hh ∈ hs, client hh = some x))
      ∧ ∀ l, s2.dids = some l → l.Nodup := by
  cases f with
  | mk nm sub kw =>
    cases sub with
    | none => exact absurd h1 (by simp)
    | some s0 =>
      have hs0 : s0 = s := by simpa using h1
      subst hs0
      cases s0 with
      | mk d hnd =>
        have hhnd : hnd = some hs := by simpa using h2
        subst hhnd
        by_cases hL : (((d.getD []) ++ hs.filterMap client).dedup).isEmpty
        · have hnil : ((d.getD []) ++ hs.filterMap client).dedup = [] :=
            List.isEmpty_iff.mp hL
          refine ⟨⟨none, some hs⟩, ?_, rfl, ?_, ?_, ?_⟩
          · simp [Filter.init, hL]
          · intro x
            simp only [Option.getD_none]
            rw [← mem_init_union client d hs x, hnil]
          · refine iff_of_true rfl ?_
            intro x hx
            rw [← mem_init_union client d hs x, hnil] at hx
            simp at hx
          · intro l hl
            simp at hl
        · refine ⟨⟨some (((d.getD []) ++ hs.filterMap client).dedup), some hs⟩, ?_, rfl,
            ?_, ?_, ?_⟩
          · simp [Filter.init, hL]
          · intro x
            simpa using mem_init_union client d hs x
          · have hne : ((d.getD []) ++ hs.filterMap client).dedup ≠ [] := by
              intro hnil
              rw [hnil] at hL
              simp at hL
            obtain ⟨x, hx⟩ := List.exists_mem_of_ne_nil _ hne
            exact iff_of_false (by simp)
              (fun hall => hall x ((mem_init_union client d hs x).mp hx))
          · intro l hl
            have : l = ((d.getD []) ++ hs.filterMap client).dedup := by simpa using hl.symm
            rw [this]
            exact List.nodup_dedup _

/-- Example directory client: resolves exactly the handle "a.example",
to "did:a". -/
def clientA : Client := fun h => if h == "a.example" then some "did:a" else none

/-- Witness for C3: handles `["a.example", "b.example"]` where only
"a.example" resolves, with pre-existing did "did:pre". -/
theorem init_union_spec_witness :
    ∃ s2,
      (Filter.init clientA
          ⟨"r", some ⟨some ["did:pre"], some ["a.example", "b.example"]⟩, none⟩).subscribes
        = some s2
      ∧ s2.handles = Subscribes.handles ⟨some ["did:pre"], some ["a.example", "b.example"]⟩
      ∧ (∀ x, x ∈ s2.dids.getD [] ↔
          (∃ d0, Subscribes.dids ⟨some ["did:pre"], some ["a.example", "b.example"]⟩ = some d0
            ∧ x ∈ d0)
          ∨ ∃ hh ∈ ["a.example", "b.example"], clientA hh = some x)
      ∧ (s2.dids = none ↔
          ∀ x, ¬((∃ d0,
              Subscribes.dids ⟨some ["did:pre"], some ["a.example", "b.example"]⟩ = some d0
                ∧ x ∈ d0)
            ∨ ∃ hh ∈ ["a.example", "b.example"], clientA hh = some x))
      ∧ ∀ l, s2.dids = some l → l.Nodup :=
  init_union_spec clientA
    ⟨"r", some ⟨some ["did:pre"], some ["a.example", "b.example"]⟩, none⟩
    ⟨some ["did:pre"], some ["a.example", "b.example"]⟩
    ["a.example", "b.example"] rfl rfl

/-- C1 as stated fails on the code: `Filter::init` converts the handles
and stores the resolved dids, but never clears or empties the handles
list; at this input the handle list is still `["a.example"]` after
`init`. -/
theorem init_does_not_clear_handles :
    ∃ s, (Filter.init clientA ⟨"r", some ⟨none, some ["a.example"]⟩, none⟩).subscribes = some s
      ∧ s.handles ≠ none ∧ s.handles ≠ some [] :=
  ⟨⟨some ["did:a"], some ["a.example"]⟩, by decide, by simp, by simp⟩

/-- C1 amended: `init` leaves the subscription's handles list exactly
as it was (it is not cleared); matching is nonetheless unaffected by
the handles list, since `is_match` consults only the identifiers. -/
theorem init_preserves_handles (client : Client) (f : Filter) :
    ((f.init client).subscribes.map Subscribes.handles)
      = (f.subscribes.map Subscribes.handles)
    ∧ ∀ (s : Subscribes) (hl1 hl2 : Option (List String)) (e : Event),
      Filter.is_match { f with subscribes := some { s with handles := hl1 } } e
        = Filter.is_match { f with subscribes := some { s with handles := hl2 } } e := by
  constructor
  · cases f with
    | mk nm sub kw =>
      cases sub with
      | none => rfl
      | some s =>
        cases s with
        | mk d hnd =>
          cases hnd with
          | none => rfl
          | some hl =>
            by_cases hL : (((d.getD []) ++ hl.filterMap client).dedup).isEmpty <;>
              simp [Filter.init, hL]
  · intro s hl1 hl2 e
    rcases e with ⟨p⟩
    cases p <;> rfl

end Aerostream
